import Mathlib

/-!
Verification development for the sslip.io DNS server
(`src/sslip.io-dns-server/xip/xip.go`).

The Go code is shallowly embedded: hostnames and DNS labels are modelled as
Lean `String`s (byte strings in Go; every input relevant here is ASCII, and
where byte counts matter the theorems carry an explicit ASCII hypothesis),
IP addresses as `List Nat` of byte values, and the package-level mutable
state (`Metrics`, the local key-value map) is threaded explicitly through
the functions that mutate it.  Go regular expressions are embedded as
executable matchers that implement the exact semantics the `regexp` package
applies to the three patterns in the source: leftmost-first (backtracking
preference) matching for `ipv4REDots`/`ipv4REDashes`, and leftmost-longest
matching for `ipv6RE` (the source calls `ipv6RE.Longest()` before
extracting the submatch).
-/

namespace Sslip

/-! ## Characters and strings -/

/-- ASCII lower-casing of one character, as Go `strings.ToLower` acts on the
ASCII subset (all hostnames and table keys in this development are ASCII). -/
def lowerChar (c : Char) : Char :=
  if 65 ≤ c.toNat ∧ c.toNat ≤ 90 then Char.ofNat (c.toNat + 32) else c

/-- ASCII lower-casing of a character list. -/
def lowerL (cs : List Char) : List Char :=
  cs.map lowerChar

/-- ASCII lower-casing of a string. -/
def lowerS (s : String) : String :=
  ⟨lowerL s.data⟩

/-- Does `pre` occur at the very start of `cs`? -/
def startsWithL : List Char → List Char → Bool
  | [], _ => true
  | _ :: _, [] => false
  | p :: ps, c :: cs => p = c && startsWithL ps cs

/-- Does `needle` occur (contiguously) anywhere in `hay`?  This is Go
`strings.Contains(hay, needle)`. -/
def containsSub (hay needle : List Char) : Bool :=
  match hay with
  | [] => startsWithL needle []
  | _ :: rest => startsWithL needle hay || containsSub rest needle

/-- String form of `containsSub`: Go `strings.Contains`. -/
def containsS (hay needle : String) : Bool :=
  containsSub hay.data needle.data

/-- Does `suf` occur at the very end of `cs`? -/
def endsWithL (cs suf : List Char) : Bool :=
  startsWithL suf.reverse cs.reverse

/-- Split a character list at every occurrence of the separator, keeping
empty segments: Go `strings.Split` with a one-character separator. -/
def splitOnC (sep : Char) : List Char → List (List Char)
  | [] => [[]]
  | c :: cs =>
    if c = sep then
      [] :: splitOnC sep cs
    else
      match splitOnC sep cs with
      | [] => [[c]]
      | seg :: segs => (c :: seg) :: segs

/-- Join segments with the separator: Go `strings.Join` with a
one-character separator. -/
def joinWithC (sep : Char) : List (List Char) → List Char
  | [] => []
  | [seg] => seg
  | seg :: segs => seg ++ sep :: joinWithC sep segs

/-- Decimal digit test. -/
def isDigitC (c : Char) : Bool :=
  '0' ≤ c && c ≤ '9'

/-- Hexadecimal digit test (`[0-9a-fA-F]`). -/
def isHexC (c : Char) : Bool :=
  isDigitC c || ('a' ≤ c && c ≤ 'f') || ('A' ≤ c && c ≤ 'F')

/-- ASCII alphanumeric test (`[0-9a-zA-Z]`), used by the zone-id branch of
the IPv6 pattern. -/
def isAlnumC (c : Char) : Bool :=
  isDigitC c || ('a' ≤ c && c ≤ 'z') || ('A' ≤ c && c ≤ 'Z')

/-- The boundary class `[.-]` that brackets every IP literal in the three
patterns of the source. -/
def isBoundaryC (c : Char) : Bool :=
  c = '.' || c = '-'

/-- Value of a hexadecimal digit. -/
def hexVal (c : Char) : Nat :=
  if isDigitC c then c.toNat - '0'.toNat
  else if 'a' ≤ c && c ≤ 'f' then c.toNat - 'a'.toNat + 10
  else if 'A' ≤ c && c ≤ 'F' then c.toNat - 'A'.toNat + 10
  else 0

/-! ## The IPv4 literal patterns

The source matches hostnames against

  `ipv4REDots   = (^|[.-])(((25[0-5]|(2[0-4]|1?[0-9])?[0-9])\.){3}(25[0-5]|(2[0-4]|1?[0-9])?[0-9]))($|[.-])`
  `ipv4REDashes =` the same with `-` in place of `\.` between the octets

and takes `FindSubmatch(...)[2]`, the literal between the boundary
characters.  Go `regexp` (in its default mode, which is the mode these two
patterns are used in) returns the match that starts leftmost in the input
and, at that start, the one a backtracking search trying alternatives
left-to-right and quantifiers greedily would find first.  `octetSplits`
enumerates the candidate matches of one octet sub-pattern in exactly that
backtracking order; `ipv4TryHere` decides a whole-pattern match anchored at
one position; `ipv4Scan` takes the leftmost anchored match. -/

/-- Candidate matches of `(25[0-5]|(2[0-4]|1?[0-9])?[0-9])` against a
prefix of `cs`, as `(consumed, rest)` pairs in backtracking preference
order: the `25[0-5]` alternative first, then the optional two-character
prefixes `2[0-4]` and `1[0-9]`, then a one-digit prefix, then a bare
digit. -/
def octetSplits (cs : List Char) : List (List Char × List Char) :=
  (match cs with
   | '2' :: '5' :: c :: rest =>
     if '0' ≤ c ∧ c ≤ '5' then [(['2', '5', c], rest)] else []
   | _ => []) ++
  (match cs with
   | '2' :: c :: d :: rest =>
     if ('0' ≤ c ∧ c ≤ '4') ∧ isDigitC d then [(['2', c, d], rest)] else []
   | _ => []) ++
  (match cs with
   | '1' :: c :: d :: rest =>
     if isDigitC c ∧ isDigitC d then [(['1', c, d], rest)] else []
   | _ => []) ++
  (match cs with
   | c :: d :: rest =>
     if isDigitC c ∧ isDigitC d then [([c, d], rest)] else []
   | _ => []) ++
  (match cs with
   | c :: rest => if isDigitC c then [([c], rest)] else []
   | _ => [])

/-- Candidate matches of `octet (sep octet){3}` against a prefix of `cs`,
in backtracking order, given as `(literal, rest)` pairs. -/
def ipv4LitSplits (sep : Char) (cs : List Char) : List (List Char × List Char) :=
  (octetSplits cs).flatMap fun (o1, r1) =>
    match r1 with
    | c1 :: r1b =>
      if c1 = sep then
        (octetSplits r1b).flatMap fun (o2, r2) =>
          match r2 with
          | c2 :: r2b =>
            if c2 = sep then
              (octetSplits r2b).flatMap fun (o3, r3) =>
                match r3 with
                | c3 :: r3b =>
                  if c3 = sep then
                    (octetSplits r3b).map fun (o4, r4) =>
                      (o1 ++ c1 :: o2 ++ c2 :: o3 ++ c3 :: o4, r4)
                  else []
                | [] => []
            else []
          | [] => []
      else []
    | [] => []

/-- The first candidate literal anchored at the head of `cs` whose trailing
context satisfies `($|[.-])`. -/
def ipv4LitHere (sep : Char) (cs : List Char) : Option (List Char) :=
  (ipv4LitSplits sep cs).findSome? fun (lit, rest) =>
    match rest with
    | [] => some lit
    | c :: _ => if isBoundaryC c then some lit else none

/-- Whole-pattern match anchored at one position: the leading `(^|[.-])`
takes the `^` alternative when `atStart` is true (trying it first), else
consumes one boundary character. -/
def ipv4TryHere (sep : Char) (atStart : Bool) (cs : List Char) : Option (List Char) :=
  match (if atStart then ipv4LitHere sep cs else none) with
  | some lit => some lit
  | none =>
    match cs with
    | c :: rest => if isBoundaryC c then ipv4LitHere sep rest else none
    | [] => none

/-- Scan for the leftmost position at which an anchored matcher `probe`
succeeds.  The flag passed to `probe` is true only at the initial position
of the whole input (where the `^` alternative of the boundary group can
fire). -/
def scanGen (probe : Bool → List Char → Option (List Char)) :
    Bool → List Char → Option (List Char)
  | b, [] => probe b []
  | b, c :: rest =>
    match probe b (c :: rest) with
    | some lit => some lit
    | none => scanGen probe false rest

/-- Scan for the leftmost anchored IPv4 match. -/
def ipv4Scan (sep : Char) (atStart : Bool) (cs : List Char) : Option (List Char) :=
  scanGen (ipv4TryHere sep) atStart cs

/-- Submatch 2 of `ipv4REDashes` (the dashed IPv4 literal), or `none` when
the pattern does not match; `Match` of the source is `(ipv4Dashes s).isSome`. -/
def ipv4Dashes (s : String) : Option (List Char) :=
  ipv4Scan '-' true s.data

/-- Submatch 2 of `ipv4REDots` (the dotted IPv4 literal), or `none` when
the pattern does not match. -/
def ipv4Dots (s : String) : Option (List Char) :=
  ipv4Scan '.' true s.data

/-! ## `net.ParseIP` -/

/-- One dotted-decimal field of an IPv4 address, per Go `net.ParseIP`
(Go 1.17 and later): one to three decimal digits, value at most 255, and
a leading zero is rejected unless the field is exactly `0`. -/
def parseV4Field (cs : List Char) : Option Nat :=
  if cs = [] then none
  else if ¬ cs.all isDigitC then none
  else if cs.length > 3 then none
  else if cs.length > 1 ∧ cs.headD '0' = '0' then none
  else
    let n := cs.foldl (fun a c => a * 10 + (c.toNat - '0'.toNat)) 0
    if n ≤ 255 then some n else none

/-- Go `net.ParseIP` on a dotted-quad string followed by `.To4()`: the four
byte values, or `none` when the string is not a valid IPv4 address. -/
def parseIPv4 (cs : List Char) : Option (List Nat) :=
  match splitOnC '.' cs with
  | [f1, f2, f3, f4] =>
    match parseV4Field f1, parseV4Field f2, parseV4Field f3, parseV4Field f4 with
    | some a, some b, some c, some d => some [a, b, c, d]
    | _, _, _, _ => none
  | _ => none

/-! ## The IPv6 literal pattern

`ipv6RE` is the classic stack-overflow IPv6 pattern with `-` for `:`,
bracketed by the same `(^|[.-])` and `($|[.-])` boundaries.  The source
calls `ipv6RE.Longest()` before `FindSubmatch`, so the relevant semantics
is POSIX leftmost-longest: the match starts as far left as possible and,
from that start, has maximal total length.  Submatch 2 (the literal) is
the whole match minus the boundary characters, so only the overall extent
matters.  The embedding enumerates, for each alternative of the literal
sub-pattern, every length of a matching prefix (`LenP` combinators), and
the scanner picks the leftmost start and maximal extent. -/

/-- A length parser: the set of lengths of prefixes of the input that the
sub-pattern can match, as a duplicate-free list. -/
abbrev LenP := List Char → List Nat

/-- Length of the run of characters satisfying `f` at the head. -/
def runLen (f : Char → Bool) : List Char → Nat
  | [] => 0
  | c :: cs => if f c then runLen f cs + 1 else 0

/-- Lengths `lo..min hi run` (empty when `run < lo`). -/
def lensBetween (lo hi run : Nat) : List Nat :=
  (List.range (min hi run + 1)).filter fun n => lo ≤ n

/-- `X{lo,hi}` for a single-character class `f`. -/
def pClass (f : Char → Bool) (lo hi : Nat) : LenP :=
  fun cs => lensBetween lo hi (runLen f cs)

/-- A single literal character. -/
def pChar (c : Char) : LenP :=
  fun cs => match cs with
  | d :: _ => if d = c then [1] else []
  | [] => []

/-- A literal word. -/
def pWord (w : List Char) : LenP :=
  fun cs => if startsWithL w cs then [w.length] else []

/-- Sequencing of two length parsers. -/
def pSeq (p q : LenP) : LenP :=
  fun cs => ((p cs).flatMap fun n => (q (cs.drop n)).map (n + ·)).dedup

/-- Alternation. -/
def pAlt (ps : List LenP) : LenP :=
  fun cs => (ps.flatMap (· cs)).dedup

/-- Option (`?`). -/
def pOpt (p : LenP) : LenP :=
  fun cs => (0 :: p cs).dedup

/-- Exactly `n` repetitions. -/
def pRep (p : LenP) : Nat → LenP
  | 0 => fun _ => [0]
  | n + 1 => pSeq p (pRep p n)

/-- Between `lo` and `hi` repetitions. -/
def pRepRange (p : LenP) (lo hi : Nat) : LenP :=
  pAlt (((List.range (hi + 1)).filter fun n => lo ≤ n).map (pRep p))

/-- `[0-9a-fA-F]{1,4}`, one colon-less IPv6 group. -/
def pHex14 : LenP := pClass isHexC 1 4

/-- `[0-9a-fA-F]{0,4}`. -/
def pHex04 : LenP := pClass isHexC 0 4

/-- A literal `-` (the `:` of the address). -/
def pDash : LenP := pChar '-'

/-- `[0-9a-fA-F]{1,4}-`. -/
def pHD : LenP := pSeq pHex14 pDash

/-- `-[0-9a-fA-F]{1,4}`. -/
def pDH : LenP := pSeq pDash pHex14

/-- One dotted-decimal octet of the embedded-IPv4 sub-pattern
(`25[0-5]|(2[0-4]|1?[0-9])?[0-9]`): same language as `octetSplits`, as
lengths. -/
def pOctet : LenP :=
  fun cs => ((octetSplits cs).map fun p => p.1.length).dedup

/-- The embedded dotted IPv4 sub-pattern `(octet\.){3}octet`. -/
def pV4 : LenP :=
  pSeq pOctet (pRep (pSeq (pChar '.') pOctet) 3)

/-- `%[0-9a-zA-Z]+`, the zone-id tail of the link-local alternative. -/
def pZone : LenP :=
  pSeq (pChar '%') fun cs => lensBetween 1 (runLen isAlnumC cs) (runLen isAlnumC cs)

/-- `0{1,4}`. -/
def pZeros14 : LenP := pClass (· = '0') 1 4

/-- The twelve alternatives of the IPv6 literal sub-pattern, in source
order (order is irrelevant under leftmost-longest semantics). -/
def pV6 : LenP :=
  pAlt
    [ pSeq (pRep pHD 7) pHex14
    , pSeq (pRepRange pHD 1 7) pDash
    , pSeq (pRepRange pHD 1 6) (pSeq pDash pHex14)
    , pSeq (pRepRange pHD 1 5) (pRepRange pDH 1 2)
    , pSeq (pRepRange pHD 1 4) (pRepRange pDH 1 3)
    , pSeq (pRepRange pHD 1 3) (pRepRange pDH 1 4)
    , pSeq (pRepRange pHD 1 2) (pRepRange pDH 1 5)
    , pSeq pHex14 (pSeq pDash (pRepRange pDH 1 6))
    , pSeq pDash (pAlt [pRepRange pDH 1 7, pDash])
    , pSeq (pWord ['f', 'e', '8', '0']) (pSeq pDash (pSeq (pRepRange (pSeq pDash pHex04) 0 4) pZone))
    , pSeq (pWord ['-', '-']) (pSeq (pOpt (pSeq (pWord ['f', 'f', 'f', 'f']) (pSeq (pOpt (pSeq pDash pZeros14)) pDash))) pV4)
    , pSeq (pRepRange pHD 1 4) (pSeq pDash pV4)
    ]

/-- Literal lengths at the head of `cs` whose trailing context satisfies
`($|[.-])`, paired with the total consumed length (literal plus trailing
boundary character, if one is consumed). -/
def v6Candidates (cs : List Char) : List (Nat × Nat) :=
  (pV6 cs).filterMap fun l =>
    match cs.drop l with
    | [] => some (l, l)
    | c :: _ => if isBoundaryC c then some (l, l + 1) else none

/-- Lexicographically better candidate: larger total length first, then
the start-anchored (`^`) branch over the boundary-consuming branch, then
the longer literal. -/
def v6Better (a b : Nat × Nat × Nat) : Bool :=
  b.1 < a.1 || (b.1 = a.1 && (b.2.1 < a.2.1 || (b.2.1 = a.2.1 && b.2.2 < a.2.2)))

/-- Pick the best candidate of a list. -/
def v6Pick : List (Nat × Nat × Nat) → Option (Nat × Nat × Nat)
  | [] => none
  | c :: cs =>
    match v6Pick cs with
    | none => some c
    | some d => if v6Better d c then some d else some c

/-- Whole-pattern match of `ipv6RE` anchored at one position, returning
the literal (submatch 2) of the longest overall match there. -/
def ipv6TryHere (atStart : Bool) (cs : List Char) : Option (List Char) :=
  let anchored : List (Nat × Nat × Nat) :=
    if atStart then (v6Candidates cs).map fun p => (p.2, 1, p.1) else []
  let bounded : List (Nat × Nat × Nat) :=
    match cs with
    | c :: rest =>
      if isBoundaryC c then (v6Candidates rest).map fun p => (p.2 + 1, 0, p.1) else []
    | [] => []
  match v6Pick (anchored ++ bounded) with
  | none => none
  | some (_, prio, litLen) =>
    if prio = 1 then some (cs.take litLen) else some ((cs.drop 1).take litLen)

/-- Leftmost-longest match of `ipv6RE`: the leftmost position with a
match, and at that position the longest overall extent. -/
def ipv6Scan (atStart : Bool) (cs : List Char) : Option (List Char) :=
  scanGen ipv6TryHere atStart cs

/-- Submatch 2 of `ipv6RE` under `Longest()` semantics, or `none` when the
pattern does not match. -/
def ipv6Find (s : String) : Option (List Char) :=
  ipv6Scan true s.data

/-! ## `net.ParseIP` for IPv6 text -/

/-- Go `xtoi`: parse a leading run of hexadecimal digits, returning the
value and the number of digits, failing on zero digits or overflow past
`big = 0xFFFFFF`. -/
def xtoiAux : List Char → Nat → Nat → Option (Nat × Nat)
  | [], n, i => if i = 0 then none else some (n, i)
  | c :: cs, n, i =>
    if isHexC c then
      let n2 := n * 16 + hexVal c
      if n2 ≥ 0xFFFFFF then none else xtoiAux cs n2 (i + 1)
    else if i = 0 then none else some (n, i)

/-- Entry point of `xtoi`. -/
def xtoi (cs : List Char) : Option (Nat × Nat) :=
  xtoiAux cs 0 0

/-- One pass of the group-reading loop of Go `parseIPv6`.  `acc` holds the
bytes produced so far (`acc.length = i` in the Go code), `ell` the position
of the `::` once seen.  Returns the final bytes, the final `::` position
and the unconsumed input. -/
def v6Loop (fuel : Nat) (s : List Char) (acc : List Nat) (ell : Option Nat) :
    Option (List Nat × Option Nat × List Char) :=
  match fuel with
  | 0 => none
  | fuel + 1 =>
    if acc.length ≥ 16 then some (acc, ell, s) else
    match xtoi s with
    | none => none
    | some (n, c) =>
      if n > 0xFFFF then none else
      if (s.drop c).headD ' ' = '.' then
        -- trailing embedded IPv4 address
        if ell = none ∧ acc.length ≠ 12 then none else
        if acc.length + 4 > 16 then none else
        match parseIPv4 s with
        | none => none
        | some ip4 => some (acc ++ ip4, ell, [])
      else
        let acc := acc ++ [n / 256, n % 256]
        let s := s.drop c
        match s with
        | [] => some (acc, ell, [])
        | c1 :: rest =>
          if c1 ≠ ':' ∨ rest = [] then none else
          match rest with
          | ':' :: rest2 =>
            if ell ≠ none then none else
            match rest2 with
            | [] => some (acc, some acc.length, [])
            | _ => v6Loop fuel rest2 acc (some acc.length)
          | _ => v6Loop fuel rest acc ell

/-- Go `parseIPv6` (the `net.ParseIP` path taken for strings whose first
separator is a colon), returning the sixteen byte values. -/
def parseIPv6 (cs : List Char) : Option (List Nat) :=
  let start : Option (List Char × Option Nat) :=
    match cs with
    | ':' :: ':' :: rest => some (rest, some 0)
    | ':' :: _ => some (cs, none)   -- will fail in the loop, as in Go
    | _ => some (cs, none)
  match start with
  | none => none
  | some (s, ell) =>
    if s = [] then
      match ell with
      | some _ => some (List.replicate 16 0)
      | none => none
    else
      match v6Loop 9 s [] ell with
      | none => none
      | some (acc, ell, rest) =>
        if rest ≠ [] then none else
        if acc.length < 16 then
          match ell with
          | none => none
          | some e => some (acc.take e ++ List.replicate (16 - acc.length) 0 ++ acc.drop e)
        else
          match ell with
          | some _ => none
          | none => some acc

/-- Replace `-` by `:`, the conversion the source applies to a matched
IPv6 literal before handing it to `net.ParseIP`. -/
def dashToColon (cs : List Char) : List Char :=
  cs.map fun c => if c = '-' then ':' else c

/-- Replace `-` by `.`, the conversion the source applies to a matched
IPv4 literal (a no-op for a dotted match). -/
def dashToDot (cs : List Char) : List Char :=
  cs.map fun c => if c = '-' then '.' else c

/-! ## DNS data model

Thin counterparts of the `golang.org/x/net/dns/dnsmessage` values the
source manipulates.  A `Name` is kept as its textual form (the source only
ever round-trips names through `Name.String()` and `NewName`). -/

/-- `dnsmessage.NewName` succeeds exactly when the textual name is at most
255 bytes; on failure the source ignores the error and uses the zero
`Name`, whose textual form is empty. -/
def newName (s : String) : String :=
  if s.data.length ≤ 255 then s else ""

/-- `dnsmessage.SOAResource` (fields in source order). -/
structure SOARec where
  soans : String
  mbox : String
  serial : Nat
  refresh : Nat
  retry : Nat
  expire : Nat
  minttl : Nat
deriving DecidableEq, Repr

/-- Resource-record data, one constructor per `dnsmessage` resource body
used by the source. -/
inductive RData where
  | a (bytes : List Nat)
  | aaaa (bytes : List Nat)
  | ns (nsname : String)
  | cname (target : String)
  | mx (pref : Nat) (exchange : String)
  | soa (r : SOARec)
  | txt (strs : List String)
deriving DecidableEq, Repr

/-- `realType` of the resource body, as assigned by the `dnsmessage`
builder: `Builder.AResource` and friends overwrite the `Type` field of the
caller-supplied `ResourceHeader` with the real type of the body before
packing, so this — not the header field written in the Go source — is the
record type that reaches the wire. -/
def RData.realType : RData → Nat
  | .a _ => 1
  | .ns _ => 2
  | .cname _ => 5
  | .soa _ => 6
  | .mx _ _ => 15
  | .txt _ => 16
  | .aaaa _ => 28

/-- One resource record as the source enqueues it: the header fields it
writes (name, the `Type` value written into the header literal, TTL) plus
the body.  `headerType` is recorded for fidelity even though the builder
replaces it by `rdata.realType` (see above). -/
structure DnsRecord where
  rname : String
  headerType : Nat
  ttl : Nat
  rdata : RData
deriving DecidableEq, Repr

/-- The record type a record has on the wire (builder override). -/
def DnsRecord.wireType (r : DnsRecord) : Nat :=
  r.rdata.realType

/-- The parts of `xip.Response` the claims are about: the header flags the
source sets in `processQuestion` (query `ID` and `RecursionDesired` are
patched in later by `QueryResponse` and are not modelled) and the three
record sections.  The source stores each section as deferred builder
closures; writing a record and writing nothing are modelled as the list of
records a successful build would emit, in order. -/
structure Response where
  authoritative : Bool
  rcode : Nat
  answers : List DnsRecord
  authorities : List DnsRecord
  additionals : List DnsRecord
deriving DecidableEq, Repr

/-- `dnsmessage` type and rcode constants used by the source. -/
def TypeA : Nat := 1

/-- Type NS. -/
def TypeNS : Nat := 2

/-- Type CNAME. -/
def TypeCNAME : Nat := 5

/-- Type SOA. -/
def TypeSOA : Nat := 6

/-- Type MX. -/
def TypeMX : Nat := 15

/-- Type TXT. -/
def TypeTXT : Nat := 16

/-- Type AAAA. -/
def TypeAAAA : Nat := 28

/-- Type ALL (ANY). -/
def TypeALL : Nat := 255

/-- RCodeSuccess. -/
def RCodeSuccess : Nat := 0

/-- RCodeNotImplemented. -/
def RCodeNotImplemented : Nat := 4

/-! ## Customizations -/

/-- Tag for the four `TXT` producer closures installed in the
customization table.  The closures themselves live in `txtProduce`. -/
inductive TxtTag where
  | sslipMail
  | srcIp
  | version
  | metricsStatus
deriving DecidableEq, Repr

/-- `xip.DomainCustomization` (the version in the source has no NS
field).  The `CNAME` field is `Option` because the source distinguishes
the zero `CNAMEResource`. -/
structure DomainCustomization where
  custA : List (List Nat)
  custAAAA : List (List Nat)
  custCNAME : Option String
  custMX : List (Nat × String)
  custTXT : Option TxtTag
deriving DecidableEq, Repr

/-- A customization with every field absent. -/
def noCust : DomainCustomization :=
  ⟨[], [], none, [], none⟩

/-- The `Customizations` table of the source, as a lookup function on the
(lower-case, dot-terminated) key. -/
def lookupCustom (s : String) : Option DomainCustomization :=
  if s = "sslip.io." then
    some ⟨[[78, 46, 204, 247]],
          [[42, 1, 4, 248, 12, 23, 11, 143, 0, 0, 0, 0, 0, 0, 0, 2]],
          none,
          [(10, "mail.protonmail.ch."), (20, "mailsec.protonmail.ch.")],
          some .sslipMail⟩
  else if s = "ns.sslip.io." then
    some ⟨[[52, 0, 56, 137], [52, 187, 42, 158], [104, 155, 144, 4]],
          [[0x26, 0, 0x1f, 0x18, 0x0a, 0xaf, 0x69, 0, 0, 0, 0, 0, 0, 0, 0, 0xa]],
          none, [], none⟩
  else if s = "ns-aws.sslip.io." then
    some ⟨[[52, 0, 56, 137]],
          [[0x26, 0, 0x1f, 0x18, 0x0a, 0xaf, 0x69, 0, 0, 0, 0, 0, 0, 0, 0, 0xa]],
          none, [], none⟩
  else if s = "ns-azure.sslip.io." then
    some ⟨[[52, 187, 42, 158]], [], none, [], none⟩
  else if s = "ns-gce.sslip.io." then
    some ⟨[[104, 155, 144, 4]], [], none, [], none⟩
  else if s = "protonmail._domainkey.sslip.io." then
    some ⟨[], [], some "protonmail.domainkey.dw4gykv5i2brtkjglrf34wf6kbxpa5hgtmg2xqopinhgxn5axo73a.domains.proton.ch.", [], none⟩
  else if s = "protonmail2._domainkey.sslip.io." then
    some ⟨[], [], some "protonmail2.domainkey.dw4gykv5i2brtkjglrf34wf6kbxpa5hgtmg2xqopinhgxn5axo73a.domains.proton.ch.", [], none⟩
  else if s = "protonmail3._domainkey.sslip.io." then
    some ⟨[], [], some "protonmail3.domainkey.dw4gykv5i2brtkjglrf34wf6kbxpa5hgtmg2xqopinhgxn5axo73a.domains.proton.ch.", [], none⟩
  else if s = "ip.sslip.io." then
    some ⟨[], [], none, [], some .srcIp⟩
  else if s = "version.status.sslip.io." then
    some ⟨[], [], none, [], some .version⟩
  else if s = "metrics.status.sslip.io." then
    some ⟨[], [], none, [], some .metricsStatus⟩
  else
    none

/-- The customized A set of a key (empty when the key is absent). -/
def customA (s : String) : List (List Nat) :=
  match lookupCustom s with
  | some d => d.custA
  | none => []

/-- The customized AAAA set of a key (empty when the key is absent). -/
def customAAAA (s : String) : List (List Nat) :=
  match lookupCustom s with
  | some d => d.custAAAA
  | none => []

/-! ## Name-to-address resolution -/

/-- The regex-driven part of `xip.NameToA`: the dashed pattern is tried
first over the whole name, then the dotted pattern; the matched literal
has its dashes turned into dots and is handed to `net.ParseIP`; a literal
that fails to parse (a leading-zero octet) yields the empty record set
without falling through to the other pattern. -/
def nameToAregex (s : String) : List (List Nat) :=
  match ipv4Dashes s with
  | some lit =>
    match parseIPv4 (dashToDot lit) with
    | some q => [q]
    | none => []
  | none =>
    match ipv4Dots s with
    | some lit =>
      match parseIPv4 (dashToDot lit) with
      | some q => [q]
      | none => []
    | none => []

/-- `xip.NameToA`: a customization with a non-empty A set (looked up under
the lower-cased name) wins, else the name parser runs. -/
def NameToA (s : String) : List (List Nat) :=
  match lookupCustom (lowerS s) with
  | some d => if d.custA ≠ [] then d.custA else nameToAregex s
  | none => nameToAregex s

/-- The regex-driven part of `xip.NameToAAAA`: the IPv6 pattern under
leftmost-longest semantics, dashes turned into colons, `net.ParseIP`
(IPv6 path, since every literal of this pattern yields a colon before any
dot) then `.To16()`. -/
def nameToAAAAregex (s : String) : List (List Nat) :=
  match ipv6Find s with
  | some lit =>
    match parseIPv6 (dashToColon lit) with
    | some bytes => [bytes]
    | none => []
  | none => []

/-- `xip.NameToAAAA`. -/
def NameToAAAA (s : String) : List (List Nat) :=
  match lookupCustom (lowerS s) with
  | some d => if d.custAAAA ≠ [] then d.custAAAA else nameToAAAAregex s
  | none => nameToAAAAregex s

/-- `xip.CNAMEResource`: the customized CNAME, `none` otherwise. -/
def CNAMEResource (s : String) : Option String :=
  match lookupCustom (lowerS s) with
  | some d => d.custCNAME
  | none => none

/-- `xip.MXResources`: the customized MX set when non-empty, else a single
preference-0 MX whose exchange is the queried name itself (via
`dnsmessage.NewName`, whose error the source discards). -/
def MXResources (s : String) : List (Nat × String) :=
  match lookupCustom (lowerS s) with
  | some d => if d.custMX ≠ [] then d.custMX else [(0, newName s)]
  | none => [(0, newName s)]

/-- The `_acme-challenge.` pattern `(?i)_acme-challenge\.` as a predicate:
a case-insensitive substring test. -/
def isDns01 (s : String) : Bool :=
  containsSub (lowerL s.data) "_acme-challenge.".data

/-- Remove every (case-insensitive, leftmost-first, non-overlapping)
occurrence of `_acme-challenge.`: `dns01ChallengeRE.ReplaceAllString(s, "")`. -/
def stripAcmeAux (fuel : Nat) (cs : List Char) : List Char :=
  match fuel with
  | 0 => cs
  | fuel + 1 =>
    match cs with
    | [] => []
    | c :: rest =>
      if startsWithL "_acme-challenge.".data (lowerL cs) then
        stripAcmeAux fuel (cs.drop 16)
      else
        c :: stripAcmeAux fuel rest

/-- String form of the `_acme-challenge.` stripper. -/
def stripAcme (s : String) : String :=
  ⟨stripAcmeAux s.data.length s.data⟩

/-- `xip.IsAcmeChallenge`: the name matches the challenge pattern and
embeds an address the name parser recognizes. -/
def IsAcmeChallenge (s : String) : Bool :=
  isDns01 s && (NameToA s ≠ [] || NameToAAAA s ≠ [])

/-! ## Server state -/

/-- `xip.Metrics` minus the `Start` timestamp (wall-clock; compared by
`MostlyEquals` in the source, which also ignores it). -/
structure Metrics where
  queries : Nat
  answeredQueries : Nat
  answeredAQueries : Nat
  answeredAAAAQueries : Nat
  answeredTXTSrcIPQueries : Nat
  answeredXTVersionQueries : Nat
  answeredNSDNS01ChallengeQueries : Nat
  answeredBlockedQueries : Nat
deriving DecidableEq, Repr

/-- The all-zero metrics value. -/
def Metrics.zero : Metrics :=
  ⟨0, 0, 0, 0, 0, 0, 0, 0⟩

/-- `Metrics.AnsweredQueries++`. -/
def incAnswered : Metrics → Metrics
  | ⟨q, a, a4, a6, ip, v, ac, b⟩ => ⟨q, a + 1, a4, a6, ip, v, ac, b⟩

/-- `Metrics.AnsweredAQueries++`. -/
def incAnsweredA : Metrics → Metrics
  | ⟨q, a, a4, a6, ip, v, ac, b⟩ => ⟨q, a, a4 + 1, a6, ip, v, ac, b⟩

/-- `Metrics.AnsweredAAAAQueries++`. -/
def incAnsweredAAAA : Metrics → Metrics
  | ⟨q, a, a4, a6, ip, v, ac, b⟩ => ⟨q, a, a4, a6 + 1, ip, v, ac, b⟩

/-- `Metrics.AnsweredTXTSrcIPQueries++`. -/
def incSrcIp : Metrics → Metrics
  | ⟨q, a, a4, a6, ip, v, ac, b⟩ => ⟨q, a, a4, a6, ip + 1, v, ac, b⟩

/-- `Metrics.AnsweredXTVersionQueries++`. -/
def incVersion : Metrics → Metrics
  | ⟨q, a, a4, a6, ip, v, ac, b⟩ => ⟨q, a, a4, a6, ip, v + 1, ac, b⟩

/-- `Metrics.AnsweredNSDNS01ChallengeQueries++`. -/
def incAcme : Metrics → Metrics
  | ⟨q, a, a4, a6, ip, v, ac, b⟩ => ⟨q, a, a4, a6, ip, v, ac + 1, b⟩

/-- `Metrics.AnsweredBlockedQueries++`. -/
def incBlocked : Metrics → Metrics
  | ⟨q, a, a4, a6, ip, v, ac, b⟩ => ⟨q, a, a4, a6, ip, v, ac, b + 1⟩

/-- `net.IPNet`: a network number with a mask, both as byte lists. -/
structure IPNet where
  netip : List Nat
  mask : List Nat
deriving DecidableEq, Repr

/-- The local key-value map `TxtKvCustomizations`, as an association list
(most recent binding first; Go map semantics are recovered by the
first-match lookup). -/
abbrev KvStore := List (String × List (List String))

/-- First-match lookup in the local key-value map. -/
def kvLookup (store : KvStore) (key : String) : Option (List (List String)) :=
  match store with
  | [] => none
  | (k, v) :: rest => if k = key then some v else kvLookup rest key

/-- `TxtKvCustomizations[key] = v` (map update). -/
def kvInsert (store : KvStore) (key : String) (v : List (List String)) : KvStore :=
  (key, v) :: store

/-- `delete(TxtKvCustomizations, key)` (map delete). -/
def kvErase (store : KvStore) (key : String) : KvStore :=
  store.filter fun p => p.1 ≠ key

/-- The state of one `xip.Xip` singleton, restricted to the fields the
modelled code paths read or write.  The etcd handle is absent (`isEtcdNil`
true): the claims about the key-value protocol are stated for the local
in-memory backing, and an etcd round-trip is external I/O outside this
embedding.  `DnsAmplificationAttackDelay` (a throttle channel) and the
`Start`/`BlocklistUpdated` timestamps are likewise not modelled. -/
structure Xip where
  blocklistStrings : List String
  blocklistCidrs : List IPNet
  metrics : Metrics
  kvStore : KvStore
deriving DecidableEq, Repr

/-- Replace the metrics of a server state. -/
def withMetrics (x : Xip) (m : Metrics) : Xip :=
  ⟨x.blocklistStrings, x.blocklistCidrs, m, x.kvStore⟩

/-- Replace the key-value store of a server state. -/
def withKv (x : Xip) (s : KvStore) : Xip :=
  ⟨x.blocklistStrings, x.blocklistCidrs, x.metrics, s⟩

/-! ## Blocklist -/

/-- `net.IP.To4`: a 4-byte address itself, the low four bytes of an
IPv4-in-IPv6 16-byte address, `none` otherwise. -/
def to4 (ip : List Nat) : Option (List Nat) :=
  if ip.length = 4 then some ip
  else if ip.length = 16 ∧ ip.take 12 = [0, 0, 0, 0, 0, 0, 0, 0, 0, 0, 255, 255] then
    some (ip.drop 12)
  else none

/-- Go `net.IP.IsPrivate`: RFC 1918 for IPv4 (10/8, 172.16/12,
192.168/16) and RFC 4193 unique-local fc00::/7 for IPv6 — nothing else.
In particular loopback, link-local, CG-NAT and the documentation ranges
count as non-private here. -/
def isPrivate (ip : List Nat) : Bool :=
  match to4 ip with
  | some ip4 =>
    ip4.headD 0 = 10 ||
    (ip4.headD 0 = 172 && (ip4.getD 1 0) &&& 0xf0 = 16) ||
    (ip4.headD 0 = 192 && ip4.getD 1 0 = 168)
  | none => ip.length = 16 && (ip.headD 0) &&& 0xfe = 0xfc

/-- `net.IPNet.Contains`: normalize both the network number and the query
address to four bytes when possible, compare under the mask. -/
def cidrContains (n : IPNet) (ip : List Nat) : Bool :=
  let nn := match to4 n.netip with
    | some i4 => i4
    | none => n.netip
  let m := if n.mask.length = 16 ∧ nn.length = 4 then n.mask.drop 12 else n.mask
  let ip := match to4 ip with
    | some i4 => i4
    | none => ip
  if ip.length ≠ nn.length then false
  else (List.range ip.length).all fun i => (nn.getD i 0) &&& (m.getD i 0) = (ip.getD i 0) &&& (m.getD i 0)

/-- The address `xip.blocklist` extracts from a hostname: the single
matched A record, overridden by the single matched AAAA record (the source
assigns `ip` from the A list when it has length one, then from the AAAA
list when that has length one). -/
def blocklistIP (hostname : String) : Option (List Nat) :=
  let ipOfA := match NameToA hostname with
    | [r] => some r
    | _ => none
  match NameToAAAA hostname with
  | [r] => some r
  | _ => ipOfA

/-- `xip.blocklist`: no embedded address means not blocked; a private
(`net.IP.IsPrivate`) address means not blocked; otherwise blocked iff some
blocklist string occurs in the hostname (case-sensitively) or some
blocklist CIDR contains the address.  A nil `ip` (possible when a
customization supplies several records) is non-private and inside no CIDR,
as in Go. -/
def blocklist (x : Xip) (hostname : String) : Bool :=
  let aRes := NameToA hostname
  let aaaaRes := NameToAAAA hostname
  if aRes = [] ∧ aaaaRes = [] then false
  else if (match blocklistIP hostname with
           | some ip => isPrivate ip
           | none => false) then false
  else if x.blocklistStrings.any fun b => containsS hostname b then true
  else if x.blocklistCidrs.any fun c =>
            (match blocklistIP hostname with
             | some ip => cidrContains c ip
             | none => false) then true
  else false

/-- One line of `xip.ReadBlocklist`: lower-case, strip `#...` comments,
strip characters outside `[-_0-9a-z/.:]`, try `net.ParseCIDR`; on failure
strip characters outside `[-_0-9a-z]` and keep the line as a substring
entry unless it is empty.  `net.ParseCIDR` (a stdlib routine whose details
none of the claims depend on) is a parameter; the lower-casing claim below
holds for every behavior of it. -/
def dropComment (cs : List Char) : List Char :=
  cs.takeWhile fun c => c ≠ '#'

/-- Characters legal in a substring blocklist entry
(the class `[-_0-9a-z]`, by code point). -/
def isBlockChar (c : Char) : Bool :=
  c.toNat = 45 || c.toNat = 95 || (48 ≤ c.toNat && c.toNat ≤ 57) ||
  (97 ≤ c.toNat && c.toNat ≤ 122)

/-- Characters legal in a CIDR candidate (`[-_0-9a-z/.:]`). -/
def isBlockCidrChar (c : Char) : Bool :=
  isBlockChar c || c.toNat = 47 || c.toNat = 46 || c.toNat = 58

/-- `xip.ReadBlocklist` over a list of input lines (the source scans a
reader line by line), parameterized by the CIDR parser. -/
def ReadBlocklist (parseCIDR : String → Option IPNet) (lines : List String) :
    List String × List IPNet :=
  match lines with
  | [] => ([], [])
  | line :: rest =>
    let (strs, cidrs) := ReadBlocklist parseCIDR rest
    let cleaned : List Char := (dropComment (lowerL line.data)).filter isBlockCidrChar
    match parseCIDR ⟨cleaned⟩ with
    | some cidr => (strs, cidr :: cidrs)
    | none =>
      let entry : List Char := cleaned.filter isBlockChar
      if entry = [] then (strs, cidrs) else (⟨entry⟩ :: strs, cidrs)

/-! ## NS, TXT and the key-value protocol -/

/-- The package-level `NameServers` list. -/
def NameServers : List String :=
  ["ns-aws.sslip.io.", "ns-azure.sslip.io.", "ns-gce.sslip.io."]

/-- `xip.NSResources`: blocked names get the default nameservers (counted
as blocked), ACME-challenge names with an embedded address get a single NS
pointing at the stripped name (counted as a DNS-01 challenge), everything
else gets the default nameservers. -/
def NSResources (x : Xip) (s : String) : List String × Xip :=
  if blocklist x s then
    (NameServers, withMetrics x (incBlocked (incAnswered x.metrics)))
  else if IsAcmeChallenge s then
    ([newName (stripAcme s)], withMetrics x (incAcme x.metrics))
  else
    (NameServers, withMetrics x (incAnswered x.metrics))

/-- `xip.getKv` with the local backing: map hit returns the stored record
set, miss returns nil. -/
def getKv (x : Xip) (key : String) : Except String (List (List String)) × Xip :=
  match kvLookup x.kvStore key with
  | some txts => (.ok txts, x)
  | none => (.ok [], x)

/-- `xip.putKv` with the local backing: the value is truncated to 63
bytes, stored as a single one-string TXT record, and returned. -/
def putKv (x : Xip) (key value : String) : Except String (List (List String)) × Xip :=
  let value := if value.data.length > 63 then ⟨value.data.take 63⟩ else value
  let store := kvInsert x.kvStore key [[value]]
  (.ok [[value]], withKv x store)

/-- `xip.deleteKv` with the local backing: unconditional delete, nil
result. -/
def deleteKv (x : Xip) (key : String) : Except String (List (List String)) × Xip :=
  (.ok [], withKv x (kvErase x.kvStore key))

/-- `xip.kvTXTResources`: split the labels, strip the `.k-v.io.` tail,
read the key from the rightmost remaining label, the verb from the
leftmost (defaulting to `get`), the value from the labels in between, and
dispatch.  The source indexes `labels[len(labels)-1]` unconditionally;
the callers only reach this function when the name ends in `.k-v.io.`, so
at least one label remains (modelled by a default for the impossible
case). -/
def kvDispatch (x : Xip) (labels : List (List Char)) :
    Except String (List (List String)) × Xip :=
  let key : String := ⟨lowerL (labels.getLastD [])⟩
  if labels.length = 1 then
    getKv x key
  else
    let verb : String := ⟨lowerL (labels.headD [])⟩
    if verb = "get" then
      getKv x key
    else if verb = "put" then
      if labels.length = 2 then
        (.ok [["422: missing a value: put.value.key.k-v.io"]], x)
      else
        putKv x key ⟨joinWithC '.' ((labels.drop 1).dropLast)⟩
    else if verb = "delete" then
      deleteKv x key
    else
      (.ok [["422: valid verbs are get, put, delete"]], x)

/-- Entry point of `kvTXTResources`: split into labels, strip the three
trailing `k-v` / `io` / empty labels, dispatch. -/
def kvTXTResources (x : Xip) (fqdn : String) : Except String (List (List String)) × Xip :=
  let labels := splitOnC '.' fqdn.data
  kvDispatch x (labels.take (labels.length - 3))

/-- Does the name end in `.k-v.io.` (the `kvRE` pattern)? -/
def isKvName (s : String) : Bool :=
  endsWithL s.data ".k-v.io.".data

/-- The metric lines of the `metrics.status.sslip.io.` TXT producer.  The
real producer first receives an amplification-throttle token (a
concurrency effect) and formats wall-clock uptime and floating-point
rates; none of the claims concern it, and its record list is modelled as
empty. -/
def metricsTxt (_ : Xip) : List (List String) :=
  []

/-- The four `TXT` producer closures of the customization table.  The
source-address echo uses the textual form of the querier address, which
the embedding carries as a string. -/
def txtProduce (tag : TxtTag) (x : Xip) (srcIP : String) :
    Except String (List (List String)) × Xip :=
  match tag with
  | .sslipMail =>
    (.ok [["protonmail-verification=ce0ca3f5010aa7a2cf8bcc693778338ffde73e26"],
          ["v=spf1 include:_spf.protonmail.ch mx ~all"]], x)
  | .srcIp =>
    (.ok [[srcIP]], withMetrics x (incSrcIp x.metrics))
  | .version =>
    (.ok [["0.0.0"], ["0001/01/01-99:99:99-0800"], ["cafexxx"]],
     withMetrics x (incVersion x.metrics))
  | .metricsStatus =>
    (.ok (metricsTxt x), x)

/-- `xip.TXTResources`: `k-v.io` names go to the key-value protocol,
customized names to their producer, everything else to an empty result. -/
def TXTResources (x : Xip) (fqdn : String) (srcIP : String) :
    Except String (List (List String)) × Xip :=
  if isKvName fqdn then
    kvTXTResources x fqdn
  else
    match lookupCustom (lowerS fqdn) with
    | some d =>
      match d.custTXT with
      | some tag => txtProduce tag x srcIP
      | none => (.ok [], x)
    | none => (.ok [], x)

/-- `xip.SOAResource`: hard-coded except for the MNAME. -/
def SOAResource (s : String) : SOARec :=
  ⟨s, "briancunnie.gmail.com.", 2022020800, 900, 900, 1800, 180⟩

/-! ## The question dispatcher -/

/-- One parsed DNS question (class is always INET in the modelled paths). -/
structure Question where
  qname : String
  qtype : Nat
deriving DecidableEq, Repr

/-- The response skeleton `processQuestion` pre-constructs: authoritative,
success, no records (ID and RecursionDesired are patched in later from the
query and are not part of the model). -/
def freshResponse : Response :=
  ⟨true, RCodeSuccess, [], [], []⟩

/-- The `SOAAuthority` record (header written with type SOA, 604800 TTL). -/
def soaAuthorityRecord (name : String) : DnsRecord :=
  ⟨name, TypeSOA, 604800, .soa (SOAResource name)⟩

/-- The first customized A record of `ns-aws.sslip.io.`, the sink answer
for blocked A queries. -/
def sinkA : List Nat :=
  (customA "ns-aws.sslip.io.").headD []

/-- The first customized AAAA record of `ns-aws.sslip.io.`, the sink
answer for blocked AAAA queries. -/
def sinkAAAA : List Nat :=
  (customAAAA "ns-aws.sslip.io.").headD []

/-- `xip.NSResponse`: when authoritative the NS records go into the
answers, otherwise into the authorities; either way the additional section
carries glue A/AAAA records obtained by passing every NS name back through
the name parsers. -/
def NSResponse (x : Xip) (name : String) (response : Response) : Response × Xip :=
  let (nameServers, x1) := NSResources x name
  let nsRecords : List DnsRecord :=
    nameServers.map fun nsName => ⟨name, TypeNS, 604800, .ns nsName⟩
  let response : Response :=
    if response.authoritative then
      ⟨response.authoritative, response.rcode, response.answers ++ nsRecords,
       response.authorities, response.additionals⟩
    else
      ⟨response.authoritative, response.rcode, response.answers,
       response.authorities ++ nsRecords, response.additionals⟩
  let glue : List DnsRecord :=
    nameServers.flatMap fun nsName =>
      ((NameToA nsName).map fun bytes => ⟨nsName, TypeA, 604800, .a bytes⟩) ++
      ((NameToAAAA nsName).map fun bytes => ⟨nsName, TypeAAAA, 604800, .aaaa bytes⟩)
  (⟨response.authoritative, response.rcode, response.answers,
    response.authorities, response.additionals ++ glue⟩, x1)

/-- `xip.nameToAwithBlocklist`: no parse → SOA authority; blocked → the
sink A answer and the blocked counter; otherwise one answer per record. -/
def nameToAwithBlocklist (x : Xip) (q : Question) (response : Response) :
    Response × Xip :=
  let nameToAs := NameToA q.qname
  if nameToAs = [] then
    (⟨response.authoritative, response.rcode, response.answers,
      response.authorities ++ [soaAuthorityRecord q.qname], response.additionals⟩, x)
  else if blocklist x q.qname then
    (⟨response.authoritative, response.rcode,
      response.answers ++ [⟨q.qname, TypeA, 604800, .a sinkA⟩],
      response.authorities, response.additionals⟩,
     withMetrics x (incBlocked (incAnswered x.metrics)))
  else
    (⟨response.authoritative, response.rcode,
      response.answers ++ nameToAs.map fun bytes => ⟨q.qname, TypeA, 604800, .a bytes⟩,
      response.authorities, response.additionals⟩,
     withMetrics x (incAnsweredA (incAnswered x.metrics)))

/-- `xip.nameToAAAAwithBlocklist`: symmetric to the A case, except that in
the blocked branch the source writes `Type: dnsmessage.TypeA` into the
header literal of the AAAA sink record (the builder replaces it with the
real type before the record reaches the wire; see `DnsRecord.wireType`). -/
def nameToAAAAwithBlocklist (x : Xip) (q : Question) (response : Response) :
    Response × Xip :=
  let nameToAAAAs := NameToAAAA q.qname
  if nameToAAAAs = [] then
    (⟨response.authoritative, response.rcode, response.answers,
      response.authorities ++ [soaAuthorityRecord q.qname], response.additionals⟩, x)
  else if blocklist x q.qname then
    (⟨response.authoritative, response.rcode,
      response.answers ++ [⟨q.qname, TypeA, 604800, .aaaa sinkAAAA⟩],
      response.authorities, response.additionals⟩,
     withMetrics x (incBlocked (incAnswered x.metrics)))
  else
    (⟨response.authoritative, response.rcode,
      response.answers ++ nameToAAAAs.map fun bytes => ⟨q.qname, TypeAAAA, 604800, .aaaa bytes⟩,
      response.authorities, response.additionals⟩,
     withMetrics x (incAnsweredAAAA (incAnswered x.metrics)))

/-- `xip.processQuestion`: the ACME pre-check first (non-blocked challenge
names with an embedded address are delegated, non-authoritatively, to the
stripped name), then the per-type switch.  Errors surface through
`Except`, exactly where the source returns a non-nil error. -/
def processQuestion (x : Xip) (q : Question) (srcIP : String) :
    Except String (Response × Xip) :=
  let response := freshResponse
  if IsAcmeChallenge q.qname ∧ ¬ blocklist x q.qname then
    .ok (NSResponse x q.qname
      ⟨false, response.rcode, response.answers, response.authorities, response.additionals⟩)
  else if q.qtype = TypeA then
    .ok (nameToAwithBlocklist x q response)
  else if q.qtype = TypeAAAA then
    .ok (nameToAAAAwithBlocklist x q response)
  else if q.qtype = TypeALL then
    .ok (⟨response.authoritative, RCodeNotImplemented, response.answers,
          response.authorities, response.additionals⟩, x)
  else if q.qtype = TypeCNAME then
    match CNAMEResource q.qname with
    | none =>
      .ok (⟨response.authoritative, response.rcode, response.answers,
            response.authorities ++ [soaAuthorityRecord q.qname], response.additionals⟩, x)
    | some target =>
      .ok (⟨response.authoritative, response.rcode,
            response.answers ++ [⟨q.qname, TypeCNAME, 604800, .cname target⟩],
            response.authorities, response.additionals⟩,
           withMetrics x (incAnswered x.metrics))
  else if q.qtype = TypeMX then
    let mailExchangers := MXResources q.qname
    if mailExchangers.length = 0 then
      .error "no MX records, but there should be one"
    else
      .ok (⟨response.authoritative, response.rcode,
            response.answers ++ mailExchangers.map fun mx => ⟨q.qname, TypeMX, 604800, .mx mx.1 mx.2⟩,
            response.authorities, response.additionals⟩,
           withMetrics x (incAnswered x.metrics))
  else if q.qtype = TypeNS then
    .ok (NSResponse x q.qname response)
  else if q.qtype = TypeSOA then
    .ok (⟨response.authoritative, response.rcode,
          response.answers ++ [⟨q.qname, TypeSOA, 604800, .soa (SOAResource q.qname)⟩],
          response.authorities, response.additionals⟩,
         withMetrics x (incAnswered x.metrics))
  else if q.qtype = TypeTXT then
    if IsAcmeChallenge q.qname then
      let (nameServers, x1) := NSResources x q.qname
      .ok (⟨false, response.rcode, response.answers,
            response.authorities ++ nameServers.map fun nsName => ⟨q.qname, TypeNS, 604800, .ns nsName⟩,
            response.additionals⟩, x1)
    else
      match TXTResources x q.qname srcIP with
      | (.error e, _) => .error e
      | (.ok txts, x1) =>
        let x2 := if txts.length > 0 then withMetrics x1 (incAnswered x1.metrics) else x1
        .ok (⟨response.authoritative, response.rcode,
              response.answers ++ txts.map fun t => ⟨q.qname, TypeTXT, 180, .txt t⟩,
              response.authorities, response.additionals⟩, x2)
  else
    .ok (⟨response.authoritative, response.rcode, response.answers,
          response.authorities ++ [soaAuthorityRecord q.qname], response.additionals⟩, x)

/-- The customized MX set of a key (empty when the key is absent). -/
def customMX (s : String) : List (Nat × String) :=
  match lookupCustom s with
  | some d => d.custMX
  | none => []

/-! ## Supporting lemmas -/

/-- Without an A customization, `NameToA` is the regex-driven parser. -/
theorem NameToA_no_custom (s : String) (h : customA (lowerS s) = []) :
    NameToA s = nameToAregex s := by
  unfold NameToA
  unfold customA at h
  cases hl : lookupCustom (lowerS s) with
  | none => rfl
  | some d =>
    rw [hl] at h
    have hA : d.custA = [] := h
    simp [hA]

/-- Without an AAAA customization, `NameToAAAA` is the regex-driven
parser. -/
theorem NameToAAAA_no_custom (s : String) (h : customAAAA (lowerS s) = []) :
    NameToAAAA s = nameToAAAAregex s := by
  unfold NameToAAAA
  unfold customAAAA at h
  cases hl : lookupCustom (lowerS s) with
  | none => rfl
  | some d =>
    rw [hl] at h
    have hA : d.custAAAA = [] := h
    simp [hA]

/-- `MXResources` never returns the empty list: every customized MX set
it returns is non-empty by the guard, and the fallback is a singleton. -/
theorem MXResources_ne_nil (s : String) : MXResources s ≠ [] := by
  unfold MXResources
  cases lookupCustom (lowerS s) with
  | none => simp
  | some d =>
    by_cases h : d.custMX = []
    · simp [h]
    · simp [h]

/-! ## Claim C5: customizations preempt name-based synthesis -/

/-- C5.  When a customization exists under the lower-cased query name with
a non-empty A (respectively AAAA) set, `NameToA` (respectively
`NameToAAAA`) returns exactly that customized record set — the name parser
is never consulted, even when the name also embeds an IP literal. -/
theorem custom_overrides :
    (∀ s d, lookupCustom (lowerS s) = some d → d.custA ≠ [] → NameToA s = d.custA) ∧
    (∀ s d, lookupCustom (lowerS s) = some d → d.custAAAA ≠ [] → NameToAAAA s = d.custAAAA) := by
  constructor
  · intro s d h hne
    unfold NameToA
    rw [h]
    simp [hne]
  · intro s d h hne
    unfold NameToAAAA
    rw [h]
    simp [hne]

/-- C5 witness: the mixed-case name `SSlip.Io.` hits the `sslip.io.`
customization for both record types. -/
theorem custom_overrides_witness :
    NameToA "SSlip.Io." = [[78, 46, 204, 247]] ∧
    NameToAAAA "SSlip.Io." = [[42, 1, 4, 248, 12, 23, 11, 143, 0, 0, 0, 0, 0, 0, 0, 2]] :=
  ⟨custom_overrides.1 "SSlip.Io."
      ⟨[[78, 46, 204, 247]],
       [[42, 1, 4, 248, 12, 23, 11, 143, 0, 0, 0, 0, 0, 0, 0, 2]],
       none,
       [(10, "mail.protonmail.ch."), (20, "mailsec.protonmail.ch.")],
       some .sslipMail⟩ (by decide) (by decide),
   custom_overrides.2 "SSlip.Io."
      ⟨[[78, 46, 204, 247]],
       [[42, 1, 4, 248, 12, 23, 11, 143, 0, 0, 0, 0, 0, 0, 0, 2]],
       none,
       [(10, "mail.protonmail.ch."), (20, "mailsec.protonmail.ch.")],
       some .sslipMail⟩ (by decide) (by decide)⟩

/-! ## Claim C9: MXResources is never empty -/

/-- C9.  `MXResources` always returns a non-empty list: the customized MX
set when one is present, otherwise exactly one preference-0 MX whose
exchange is the queried name itself (for names within the 255-byte limit
of `dnsmessage.NewName`).  Consequently the `no MX records` internal-error
branch of the dispatcher is unreachable: an MX question always produces a
non-error response. -/
theorem mx_nonempty :
    (∀ s, MXResources s ≠ []) ∧
    (∀ s d, lookupCustom (lowerS s) = some d → d.custMX ≠ [] → MXResources s = d.custMX) ∧
    (∀ s, customMX (lowerS s) = [] → s.data.length ≤ 255 → MXResources s = [(0, s)]) ∧
    (∀ (x : Xip) (q : Question) (src : String), q.qtype = TypeMX →
      ∃ r, processQuestion x q src = .ok r) := by
  refine ⟨MXResources_ne_nil, ?_, ?_, ?_⟩
  · intro s d h hne
    unfold MXResources
    rw [h]
    simp [hne]
  · intro s hc hlen
    have hlen2 : s.length ≤ 255 := hlen
    unfold MXResources
    unfold customMX at hc
    cases hl : lookupCustom (lowerS s) with
    | none => simp [newName, hlen, hlen2]
    | some d =>
      rw [hl] at hc
      have hMX : d.custMX = [] := hc
      simp [hMX, newName, hlen, hlen2]
  · intro x q src hq
    by_cases hacme : IsAcmeChallenge q.qname ∧ ¬ blocklist x q.qname
    · have hstep : processQuestion x q src =
          .ok (NSResponse x q.qname ⟨false, RCodeSuccess, [], [], []⟩) := by
        simp only [processQuestion, if_pos hacme]
        rfl
      exact ⟨_, hstep⟩
    · have hne0 : ¬ ((MXResources q.qname).length = 0) := by
        simpa [List.length_eq_zero] using MXResources_ne_nil q.qname
      have hstep : processQuestion x q src =
          .ok (⟨true, RCodeSuccess,
                (MXResources q.qname).map fun mx => ⟨q.qname, TypeMX, 604800, .mx mx.1 mx.2⟩,
                [], []⟩,
               withMetrics x (incAnswered x.metrics)) := by
        simp only [processQuestion, if_neg hacme, hq]
        simp only [if_true]
        rw [if_neg hne0]
        rfl
      exact ⟨_, hstep⟩

/-- C9 witness: the `sslip.io.` MX customization and a generic name, plus
a non-error dispatch at type MX. -/
theorem mx_nonempty_witness :
    MXResources "random.com." = [(0, "random.com.")] ∧
    (∃ r, processQuestion ⟨[], [], Metrics.zero, []⟩ ⟨"sslip.io.", 15⟩ "9.9.9.9" = .ok r) :=
  ⟨mx_nonempty.2.2.1 "random.com." (by decide) (by decide),
   mx_nonempty.2.2.2 ⟨[], [], Metrics.zero, []⟩ ⟨"sslip.io.", 15⟩ "9.9.9.9" (by decide)⟩

/-! ## Claim C1: names matching the IPv4 pattern -/

/-- C1 (amended).  For a name with no A customization: when the dashed
IPv4 pattern matches and the extracted literal parses as a valid numeric
IP, `NameToA` returns exactly one A record carrying the parsed octets;
the same holds for the dotted pattern when the dashed one does not match;
and in either case, when the extracted literal fails `net.ParseIP` (a
leading-zero octet, as in `1.2.3.04`), `NameToA` returns the empty record
set. -/
theorem nameToA_parsed_octets :
    (∀ s lit q, customA (lowerS s) = [] → ipv4Dashes s = some lit →
      parseIPv4 (dashToDot lit) = some q → NameToA s = [q]) ∧
    (∀ s lit q, customA (lowerS s) = [] → ipv4Dashes s = none → ipv4Dots s = some lit →
      parseIPv4 (dashToDot lit) = some q → NameToA s = [q]) ∧
    (∀ s lit, customA (lowerS s) = [] → ipv4Dashes s = some lit →
      parseIPv4 (dashToDot lit) = none → NameToA s = []) ∧
    (∀ s lit, customA (lowerS s) = [] → ipv4Dashes s = none → ipv4Dots s = some lit →
      parseIPv4 (dashToDot lit) = none → NameToA s = []) := by
  refine ⟨?_, ?_, ?_, ?_⟩
  · intro s lit q hc hdash hparse
    rw [NameToA_no_custom s hc]
    simp [nameToAregex, hdash, hparse]
  · intro s lit q hc hdash hdot hparse
    rw [NameToA_no_custom s hc]
    simp [nameToAregex, hdash, hdot, hparse]
  · intro s lit hc hdash hparse
    rw [NameToA_no_custom s hc]
    simp [nameToAregex, hdash, hparse]
  · intro s lit hc hdash hdot hparse
    rw [NameToA_no_custom s hc]
    simp [nameToAregex, hdash, hdot, hparse]

/-- C1 counterexample: `1-2-3-04.sslip.io.` matches the dashed IPv4
pattern (extracted literal `1-2-3-04`) and has no A customization, yet
`NameToA` returns the empty record set, because `net.ParseIP` (Go 1.17
and later) rejects the leading-zero octet `04`. -/
theorem nameToA_leading_zero_counterexample :
    customA (lowerS "1-2-3-04.sslip.io.") = [] ∧
    ipv4Dashes "1-2-3-04.sslip.io." = some ['1', '-', '2', '-', '3', '-', '0', '4'] ∧
    NameToA "1-2-3-04.sslip.io." = [] := by
  decide

/-- C1 witness: a dotted match that parses. -/
theorem nameToA_parsed_octets_witness :
    NameToA "255.254.253.252.com" = [[255, 254, 253, 252]] :=
  nameToA_parsed_octets.2.1 "255.254.253.252.com"
    ['2', '5', '5', '.', '2', '5', '4', '.', '2', '5', '3', '.', '2', '5', '2']
    [255, 254, 253, 252] (by decide) (by decide) (by decide) (by decide)

/-! ## Claim C2: the blocklist private-range bypass -/

/-- C2 (amended).  The address `blocklist` bypasses is the one
`net.IP.IsPrivate` recognizes — RFC 1918 (10/8, 172.16/12, 192.168/16)
for IPv4 and RFC 4193 unique-local (fc00::/7) for IPv6, and nothing else:
whenever the hostname's extracted address lies in one of those ranges,
`blocklist` returns false regardless of any substring or CIDR match.
(Loopback, link-local, CG-NAT, documentation and the other ranges the
spec attributes to an `IsPublic` helper are not excluded by this version
of the code.) -/
theorem blocklist_private_bypass (x : Xip) (h : String) (ip : List Nat)
    (hip : blocklistIP h = some ip) (hpriv : isPrivate ip = true) :
    blocklist x h = false := by
  simp [blocklist, hip, hpriv]

/-- C2 counterexample: the loopback address 127.0.0.1 is in the claimed
non-public list, yet a hostname embedding it and containing a blocked
substring is blocklisted (`net.IP.IsPrivate` is false on 127/8). -/
theorem blocklist_loopback_counterexample :
    NameToA "raiffeisen.127.0.0.1.sslip.io." = [[127, 0, 0, 1]] ∧
    blocklist ⟨["raiffeisen"], [], Metrics.zero, []⟩ "raiffeisen.127.0.0.1.sslip.io." = true := by
  decide

/-- C2 witness: an RFC 1918 address bypasses the blocklist even when a
blocked substring occurs in the hostname. -/
theorem blocklist_private_bypass_witness :
    blocklist ⟨["192-168-0-1"], [], Metrics.zero, []⟩ "192-168-0-1.sslip.io." = false :=
  blocklist_private_bypass ⟨["192-168-0-1"], [], Metrics.zero, []⟩
    "192-168-0-1.sslip.io." [192, 168, 0, 1] (by decide) (by decide)

/-! ## Splitting lemmas for the key-value grammar -/

/-- Splitting never yields the empty segment list. -/
theorem splitOnC_ne_nil (c : Char) (xs : List Char) : splitOnC c xs ≠ [] := by
  cases xs with
  | nil => simp [splitOnC]
  | cons d rest =>
    by_cases h : d = c
    · simp [splitOnC, h]
    · simp only [splitOnC, if_neg h]
      cases splitOnC c rest <;> simp

/-- Splitting distributes over a separator occurrence. -/
theorem splitOnC_append (c : Char) (xs ys : List Char) :
    splitOnC c (xs ++ c :: ys) = splitOnC c xs ++ splitOnC c ys := by
  induction xs with
  | nil => simp [splitOnC]
  | cons d xs ih =>
    by_cases h : d = c
    · simp [splitOnC, h, ih]
    · obtain ⟨seg, segs, hss⟩ := List.exists_cons_of_ne_nil (splitOnC_ne_nil c xs)
      simp only [List.cons_append, splitOnC, if_neg h, List.append_eq]
      rw [ih, hss]
      rfl

/-- A separator-free list splits into itself. -/
theorem splitOnC_no_sep (c : Char) (xs : List Char)
    (h : xs.all (fun d => d ≠ c) = true) : splitOnC c xs = [xs] := by
  induction xs with
  | nil => rfl
  | cons d xs ih =>
    simp only [List.all_cons, Bool.and_eq_true] at h
    have hd : ¬ d = c := by simpa using h.1
    simp only [splitOnC, if_neg hd, ih h.2]

/-- Joining undoes splitting. -/
theorem joinWithC_splitOnC (c : Char) (xs : List Char) :
    joinWithC c (splitOnC c xs) = xs := by
  induction xs with
  | nil => rfl
  | cons d xs ih =>
    obtain ⟨seg, segs, hss⟩ := List.exists_cons_of_ne_nil (splitOnC_ne_nil c xs)
    rw [hss] at ih
    by_cases h : d = c
    · subst h
      simp only [splitOnC, if_pos rfl, hss]
      cases segs <;> simp only [joinWithC] at ih ⊢ <;> simp [ih]
    · simp only [splitOnC, if_neg h, hss]
      cases segs with
      | nil =>
        simp only [joinWithC] at ih ⊢
        simp [ih]
      | cons s2 ss =>
        simp only [joinWithC] at ih ⊢
        simp [ih]

/-- Lookup after insert of the same key. -/
theorem kvLookup_insert_self (store : KvStore) (k : String) (v : List (List String)) :
    kvLookup (kvInsert store k v) k = some v := by
  simp [kvLookup, kvInsert]

/-- Lookup after erase of the same key. -/
theorem kvLookup_erase_self (store : KvStore) (k : String) :
    kvLookup (kvErase store k) k = none := by
  induction store with
  | nil => rfl
  | cons p rest ih =>
    by_cases h : p.1 = k
    · simp [kvErase, h, ih, kvErase] at ih ⊢
      simpa [kvErase] using ih
    · simp [kvErase, h, kvLookup, ih]
      simpa [kvErase] using ih

/-- The label split of `verbValue ++ K ++ ".k-v.io."` for a dot-free key
`K`: the leading labels, then the key label, then the stripped tail. -/
theorem kv_split (preL : List (List Char)) (pre : List Char) (K : String)
    (hpre : splitOnC '.' pre = preL)
    (hK : K.data.all (fun d => d ≠ '.') = true) :
    splitOnC '.' (pre ++ '.' :: (K.data ++ '.' :: "k-v.io.".data))
      = preL ++ [K.data] ++ [['k', '-', 'v'], ['i', 'o'], []] := by
  rw [splitOnC_append, splitOnC_append, splitOnC_no_sep '.' K.data hK, hpre]
  have hkv : splitOnC '.' "k-v.io.".data = [['k', '-', 'v'], ['i', 'o'], []] := by decide
  rw [hkv, List.append_assoc]

/-- Stripping the three trailing labels keeps exactly the leading ones. -/
theorem kvTXT_strip (x : Xip) (fqdn : String) (ls : List (List Char))
    (h : splitOnC '.' fqdn.data = ls ++ [['k', '-', 'v'], ['i', 'o'], []]) :
    kvTXTResources x fqdn = kvDispatch x ls := by
  have hlen : (ls ++ [['k', '-', 'v'], ['i', 'o'], []]).length - 3 = ls.length := by
    simp
  have h2 : kvTXTResources x fqdn
      = kvDispatch x ((ls ++ [['k', '-', 'v'], ['i', 'o'], []]).take
          ((ls ++ [['k', '-', 'v'], ['i', 'o'], []]).length - 3)) := by
    simp only [kvTXTResources, h]
  rw [h2, hlen, List.take_left]

/-- `put` dispatch on explicit labels `put . value-labels . key`: the
value is reassembled from the split of `V` and handed to `putKv` with the
lower-cased key. -/
theorem kvDispatch_put (x : Xip) (V K : String) :
    kvDispatch x (["put".data] ++ splitOnC '.' V.data ++ [K.data]) =
      putKv x ⟨lowerL K.data⟩ V := by
  obtain ⟨seg, segs, hss⟩ := List.exists_cons_of_ne_nil (splitOnC_ne_nil '.' V.data)
  have hjoin : joinWithC '.' (splitOnC '.' V.data) = V.data := joinWithC_splitOnC '.' V.data
  have hlast : (["put".data] ++ splitOnC '.' V.data ++ [K.data]).getLastD [] = K.data :=
    List.getLastD_concat _ _ _
  have hdrop : ((["put".data] ++ splitOnC '.' V.data ++ [K.data]).drop 1).dropLast
      = splitOnC '.' V.data := by
    simp
  have hlen : (["put".data] ++ splitOnC '.' V.data ++ [K.data]).length = segs.length + 3 := by
    simp [hss]
  unfold kvDispatch
  rw [hlast, hdrop, hjoin, hlen]
  have hne1 : ¬ (segs.length + 3 = 1) := by omega
  have hne2 : ¬ (segs.length + 3 = 2) := by omega
  rw [if_neg hne1]
  have hverb : (⟨lowerL ((["put".data] ++ splitOnC '.' V.data ++ [K.data]).headD [])⟩ : String)
      = "put" := rfl
  rw [hverb]
  rw [if_neg (by decide : ¬ ("put" = "get"))]
  rw [if_pos (rfl : "put" = "put")]
  rw [if_neg hne2]

/-- `putKv` below the truncation threshold stores and echoes the value
unchanged. -/
theorem putKv_short (x : Xip) (key V : String) (hV : V.data.length ≤ 63) :
    putKv x key V = (.ok [[V]], withKv x (kvInsert x.kvStore key [[V]])) := by
  unfold putKv
  rw [if_neg (by omega : ¬ (V.data.length > 63))]

/-- `putKv` past the truncation threshold stores and echoes exactly the
first 63 characters of the value. -/
theorem putKv_long (x : Xip) (key V : String) (hV : V.data.length > 63) :
    putKv x key V
      = (.ok [[⟨V.data.take 63⟩]],
         withKv x (kvInsert x.kvStore key [[⟨V.data.take 63⟩]])) := by
  unfold putKv
  rw [if_pos hV]

/-- `get` dispatch on the single label `key`. -/
theorem kvDispatch_get (x : Xip) (K : String) :
    kvDispatch x [K.data] = getKv x ⟨lowerL K.data⟩ := by
  unfold kvDispatch
  simp

/-- `delete` dispatch on explicit labels `delete . key`. -/
theorem kvDispatch_delete (x : Xip) (K : String) :
    kvDispatch x ["delete".data, K.data] = deleteKv x ⟨lowerL K.data⟩ := by
  unfold kvDispatch
  have hverb : (⟨lowerL (["delete".data, K.data].headD [])⟩ : String) = "delete" := rfl
  rw [hverb]
  simp

/-- The label split of `K ++ ".k-v.io."` for a dot-free key. -/
theorem kv_split_get (K : String) (hK : K.data.all (fun d => d ≠ '.') = true) :
    splitOnC '.' (K ++ ".k-v.io.").data = [K.data] ++ [['k', '-', 'v'], ['i', 'o'], []] := by
  have hd : (K ++ ".k-v.io.").data = K.data ++ '.' :: "k-v.io.".data := by
    rw [String.data_append]
  rw [hd, splitOnC_append, splitOnC_no_sep '.' K.data hK]
  have hkv : splitOnC '.' "k-v.io.".data = [['k', '-', 'v'], ['i', 'o'], []] := by decide
  rw [hkv]

/-- The label split of `verb ++ "." ++ K ++ ".k-v.io."` for a dot-free
verb and key. -/
theorem kv_split_verb (vb K : String)
    (hv : vb.data.all (fun d => d ≠ '.') = true)
    (hK : K.data.all (fun d => d ≠ '.') = true) :
    splitOnC '.' (vb ++ "." ++ K ++ ".k-v.io.").data
      = [vb.data, K.data] ++ [['k', '-', 'v'], ['i', 'o'], []] := by
  have hd : (vb ++ "." ++ K ++ ".k-v.io.").data
      = vb.data ++ '.' :: (K.data ++ '.' :: "k-v.io.".data) := by
    simp [String.data_append]
  rw [hd, splitOnC_append, splitOnC_append,
      splitOnC_no_sep '.' vb.data hv, splitOnC_no_sep '.' K.data hK]
  rfl

/-- The label split of `"put." ++ V ++ "." ++ K ++ ".k-v.io."`. -/
theorem kv_split_put (V K : String) (hK : K.data.all (fun d => d ≠ '.') = true) :
    splitOnC '.' ("put." ++ V ++ "." ++ K ++ ".k-v.io.").data
      = (["put".data] ++ splitOnC '.' V.data ++ [K.data]) ++ [['k', '-', 'v'], ['i', 'o'], []] := by
  have hd : ("put." ++ V ++ "." ++ K ++ ".k-v.io.").data
      = "put".data ++ '.' :: (V.data ++ '.' :: (K.data ++ '.' :: "k-v.io.".data)) := by
    simp [String.data_append]
  rw [hd, splitOnC_append, splitOnC_append, splitOnC_append,
      splitOnC_no_sep '.' K.data hK]
  have hput : splitOnC '.' "put".data = [['p', 'u', 't']] := by decide
  have hkv : splitOnC '.' "k-v.io.".data = [['k', '-', 'v'], ['i', 'o'], []] := by decide
  rw [hput, hkv]
  simp

/-! ## Claim C6: key-value round trip (local backing) -/

/-- C6.  With the local in-memory backing: putting value `V` under
dot-free key `K` answers a single TXT `V` and stores it under the
lower-cased key; a following `get` returns the single TXT `V` without
changing the state; a following `delete` answers the empty record set and
removes the key, after which `get` answers the empty record set.  The
ASCII hypothesis on `V` makes the 63-length cap of the embedding coincide
with the 63-byte cap of the source. -/
theorem kv_round_trip (x : Xip) (K V : String)
    (hK : K.data.all (fun d => d ≠ '.') = true)
    (_hAscii : V.data.all (fun d => d.toNat < 128) = true)
    (hV : V.data.length ≤ 63) :
    kvTXTResources x ("put." ++ V ++ "." ++ K ++ ".k-v.io.")
      = (.ok [[V]], withKv x (kvInsert x.kvStore ⟨lowerL K.data⟩ [[V]])) ∧
    kvTXTResources (withKv x (kvInsert x.kvStore ⟨lowerL K.data⟩ [[V]])) (K ++ ".k-v.io.")
      = (.ok [[V]], withKv x (kvInsert x.kvStore ⟨lowerL K.data⟩ [[V]])) ∧
    kvTXTResources (withKv x (kvInsert x.kvStore ⟨lowerL K.data⟩ [[V]]))
        ("delete." ++ K ++ ".k-v.io.")
      = (.ok [], withKv x (kvErase (kvInsert x.kvStore ⟨lowerL K.data⟩ [[V]]) ⟨lowerL K.data⟩)) ∧
    kvTXTResources (withKv x (kvErase (kvInsert x.kvStore ⟨lowerL K.data⟩ [[V]]) ⟨lowerL K.data⟩))
        (K ++ ".k-v.io.")
      = (.ok [], withKv x (kvErase (kvInsert x.kvStore ⟨lowerL K.data⟩ [[V]]) ⟨lowerL K.data⟩)) := by
  refine ⟨?_, ?_, ?_, ?_⟩
  · rw [kvTXT_strip x _ _ (kv_split_put V K hK), kvDispatch_put x V K, putKv_short x _ V hV]
  · rw [kvTXT_strip _ _ _ (kv_split_get K hK), kvDispatch_get]
    unfold getKv
    simp [withKv, kvLookup_insert_self]
  · have hdq : ("delete." ++ K ++ ".k-v.io." : String) = "delete" ++ "." ++ K ++ ".k-v.io." := by
      have hlit : ("delete." : String) = "delete" ++ "." := by decide
      rw [hlit]
    rw [hdq, kvTXT_strip _ _ _ (kv_split_verb "delete" K (by decide) hK), kvDispatch_delete]
    unfold deleteKv
    simp [withKv]
  · rw [kvTXT_strip _ _ _ (kv_split_get K hK), kvDispatch_get]
    unfold getKv
    simp [withKv, kvLookup_erase_self]

/-- C6 witness: round trip for key `MyKey` and value `MyValue`. -/
theorem kv_round_trip_witness :
    kvTXTResources ⟨[], [], Metrics.zero, []⟩ "put.MyValue.MyKey.k-v.io."
      = (.ok [["MyValue"]],
         ⟨[], [], Metrics.zero, [("mykey", [["MyValue"]])]⟩) ∧
    kvTXTResources ⟨[], [], Metrics.zero, [("mykey", [["MyValue"]])]⟩ "MyKey.k-v.io."
      = (.ok [["MyValue"]],
         ⟨[], [], Metrics.zero, [("mykey", [["MyValue"]])]⟩) := by
  have h := kv_round_trip ⟨[], [], Metrics.zero, []⟩ "MyKey" "MyValue"
    (by decide) (by decide) (by decide)
  exact ⟨h.1, h.2.1⟩

/-! ## Claim C7: key-value malformed and oversized commands -/

/-- C7.  The verb dispatch handles malformed and oversized commands with
a nil error: an over-long put value is truncated to its first 63 bytes,
stored and echoed; a put without a value label answers the fixed
`422: missing a value` TXT and leaves the state unchanged; a verb other
than get, put and delete (after lower-casing, with or without value
labels) answers the fixed `422: valid verbs` TXT and leaves the state
unchanged. -/
theorem kv_error_handling :
    (∀ (x : Xip) (K V : String), K.data.all (fun d => d ≠ '.') = true →
      V.data.all (fun d => d.toNat < 128) = true →
      V.data.length > 63 →
      kvTXTResources x ("put." ++ V ++ "." ++ K ++ ".k-v.io.")
        = (.ok [[⟨V.data.take 63⟩]],
           withKv x (kvInsert x.kvStore ⟨lowerL K.data⟩ [[⟨V.data.take 63⟩]]))) ∧
    (∀ (x : Xip) (K : String), K.data.all (fun d => d ≠ '.') = true →
      kvTXTResources x ("put." ++ K ++ ".k-v.io.")
        = (.ok [["422: missing a value: put.value.key.k-v.io"]], x)) ∧
    (∀ (x : Xip) (vb K : String),
      vb.data.all (fun d => d ≠ '.') = true →
      K.data.all (fun d => d ≠ '.') = true →
      (⟨lowerL vb.data⟩ : String) ≠ "get" →
      (⟨lowerL vb.data⟩ : String) ≠ "put" →
      (⟨lowerL vb.data⟩ : String) ≠ "delete" →
      kvTXTResources x (vb ++ "." ++ K ++ ".k-v.io.")
        = (.ok [["422: valid verbs are get, put, delete"]], x)) := by
  refine ⟨?_, ?_, ?_⟩
  · intro x K V hK _hAscii hV
    rw [kvTXT_strip x _ _ (kv_split_put V K hK), kvDispatch_put x V K, putKv_long x _ V hV]
  · intro x K hK
    have hpq : ("put." ++ K ++ ".k-v.io." : String) = "put" ++ "." ++ K ++ ".k-v.io." := by
      have hlit : ("put." : String) = "put" ++ "." := by decide
      rw [hlit]
    rw [hpq, kvTXT_strip _ _ _ (kv_split_verb "put" K (by decide) hK)]
    unfold kvDispatch
    have hverb : (⟨lowerL (["put".data, K.data].headD [])⟩ : String) = "put" := rfl
    rw [hverb]
    simp
  · intro x vb K hv hK hget hput hdel
    rw [kvTXT_strip _ _ _ (kv_split_verb vb K hv hK)]
    unfold kvDispatch
    have hverb : (⟨lowerL ([vb.data, K.data].headD [])⟩ : String) = (⟨lowerL vb.data⟩ : String) := rfl
    rw [hverb]
    simp [hget, hput, hdel]

/-- C7 witness: an oversized value (64 characters) is truncated to 63, a
value-less put and an unknown verb answer their fixed 422 TXT records. -/
theorem kv_error_handling_witness :
    kvTXTResources ⟨[], [], Metrics.zero, []⟩
        ("put." ++ "0123456789012345678901234567890123456789012345678901234567890123" ++ "." ++ "k" ++ ".k-v.io.")
      = (.ok [["012345678901234567890123456789012345678901234567890123456789012"]],
         ⟨[], [], Metrics.zero,
          [("k", [["012345678901234567890123456789012345678901234567890123456789012"]])]⟩) ∧
    kvTXTResources ⟨[], [], Metrics.zero, []⟩ ("put." ++ "k" ++ ".k-v.io.")
      = (.ok [["422: missing a value: put.value.key.k-v.io"]], ⟨[], [], Metrics.zero, []⟩) ∧
    kvTXTResources ⟨[], [], Metrics.zero, []⟩ ("frob" ++ "." ++ "k" ++ ".k-v.io.")
      = (.ok [["422: valid verbs are get, put, delete"]], ⟨[], [], Metrics.zero, []⟩) := by
  refine ⟨?_, ?_, ?_⟩
  · have h := kv_error_handling.1 ⟨[], [], Metrics.zero, []⟩ "k"
      "0123456789012345678901234567890123456789012345678901234567890123"
      (by decide) (by decide) (by decide)
    simpa using h
  · exact kv_error_handling.2.1 ⟨[], [], Metrics.zero, []⟩ "k" (by decide)
  · exact kv_error_handling.2.2 ⟨[], [], Metrics.zero, []⟩ "frob" "k"
      (by decide) (by decide) (by decide) (by decide) (by decide)

/-! ## Claim C3: ACME delegation -/

/-- C3 (amended).  For every question (of any type) whose name contains
`_acme-challenge.` case-insensitively, embeds an address the name parser
recognizes, and is not blocklisted: the response is non-authoritative,
answers nothing, and carries in its authority section exactly one NS whose
name is the queried name with every occurrence of `_acme-challenge.`
removed (for a prefix occurrence this is the stripped suffix); the
additional section carries the glue addresses of that stripped name, and
the DNS-01-challenge counter is incremented. -/
theorem acme_delegation (x : Xip) (q : Question) (src : String)
    (hacme : IsAcmeChallenge q.qname = true)
    (hbl : blocklist x q.qname = false)
    (hlen : (stripAcme q.qname).data.length ≤ 255) :
    processQuestion x q src =
      .ok (⟨false, RCodeSuccess, [],
            [⟨q.qname, TypeNS, 604800, .ns (stripAcme q.qname)⟩],
            ((NameToA (stripAcme q.qname)).map fun bytes =>
              ⟨stripAcme q.qname, TypeA, 604800, .a bytes⟩) ++
            ((NameToAAAA (stripAcme q.qname)).map fun bytes =>
              ⟨stripAcme q.qname, TypeAAAA, 604800, .aaaa bytes⟩)⟩,
           withMetrics x (incAcme x.metrics)) := by
  have hcond : IsAcmeChallenge q.qname = true ∧ ¬ blocklist x q.qname = true :=
    ⟨hacme, by simp [hbl]⟩
  have hlen2 : (stripAcme q.qname).length ≤ 255 := hlen
  simp only [processQuestion, if_pos hcond]
  simp [NSResponse, NSResources, hbl, hacme, newName, hlen, hlen2, freshResponse]

/-- C3 counterexample: the claim promises the NS name with the
`_acme-challenge.` prefix removed, but the source removes every
occurrence (`ReplaceAllString`): for
`www._acme-challenge.1-2-3-4.com.` — where the pattern occurs only in the
middle, so prefix removal would leave the name unchanged — the NS
referral points at `www.1-2-3-4.com.`. -/
theorem acme_strip_occurrences_counterexample :
    processQuestion ⟨[], [], Metrics.zero, []⟩
        ⟨"www._acme-challenge.1-2-3-4.com.", TypeNS⟩ "9.9.9.9"
      = .ok (⟨false, 0, [],
              [⟨"www._acme-challenge.1-2-3-4.com.", 2, 604800, .ns "www.1-2-3-4.com."⟩],
              [⟨"www.1-2-3-4.com.", 1, 604800, .a [1, 2, 3, 4]⟩]⟩,
             ⟨[], [], ⟨0, 0, 0, 0, 0, 0, 1, 0⟩, []⟩) ∧
    ("www.1-2-3-4.com." : String) ≠ "www._acme-challenge.1-2-3-4.com." := by
  constructor
  · rfl
  · decide

/-- C3 witness: the P9 scenario — an NS question for
`_acme-challenge.1-2-3-4.example.com.` yields a non-authoritative
referral with a single NS `1-2-3-4.example.com.` and its glue A. -/
theorem acme_delegation_witness :
    processQuestion ⟨[], [], Metrics.zero, []⟩
        ⟨"_acme-challenge.1-2-3-4.example.com.", TypeNS⟩ "9.9.9.9"
      = .ok (⟨false, 0, [],
              [⟨"_acme-challenge.1-2-3-4.example.com.", 2, 604800, .ns "1-2-3-4.example.com."⟩],
              [⟨"1-2-3-4.example.com.", 1, 604800, .a [1, 2, 3, 4]⟩]⟩,
             ⟨[], [], ⟨0, 0, 0, 0, 0, 0, 1, 0⟩, []⟩) := by
  have h := acme_delegation ⟨[], [], Metrics.zero, []⟩
    ⟨"_acme-challenge.1-2-3-4.example.com.", TypeNS⟩ "9.9.9.9"
    (by decide) (by decide) (by decide)
  rw [h]
  rfl

/-! ## Claim C8: blocked AAAA queries answer the AAAA sink -/

/-- C8.  For an AAAA question whose name synthesizes an AAAA and is
blocklisted, the response has exactly one answer — the first AAAA of the
`ns-aws.sslip.io.` customization — and the blocked counter is
incremented.  The source writes `TypeA` into the header literal of that
record, but the `dnsmessage` builder replaces the header type with the
real type of the body, so the record reaching the wire has type AAAA,
symmetric to the A case. -/
theorem aaaa_blocklist_sink (x : Xip) (q : Question) (src : String)
    (hq : q.qtype = TypeAAAA)
    (hne : NameToAAAA q.qname ≠ [])
    (hbl : blocklist x q.qname = true) :
    processQuestion x q src
      = .ok (⟨true, RCodeSuccess,
              [⟨q.qname, TypeA, 604800, .aaaa sinkAAAA⟩], [], []⟩,
             withMetrics x (incBlocked (incAnswered x.metrics))) ∧
    DnsRecord.wireType ⟨q.qname, TypeA, 604800, .aaaa sinkAAAA⟩ = TypeAAAA ∧
    sinkAAAA = [0x26, 0, 0x1f, 0x18, 0x0a, 0xaf, 0x69, 0, 0, 0, 0, 0, 0, 0, 0, 0xa] := by
  have hcond : ¬ (IsAcmeChallenge q.qname = true ∧ ¬ blocklist x q.qname = true) := by
    intro hc
    exact hc.2 hbl
  refine ⟨?_, rfl, by decide⟩
  simp only [processQuestion, if_neg hcond, hq, TypeA, TypeAAAA, TypeALL, TypeCNAME,
             TypeMX, TypeNS, TypeSOA, TypeTXT]
  simp [nameToAAAAwithBlocklist, hne, hbl, freshResponse, TypeA, RCodeSuccess]

/-- C8 witness: `raiffeisen.2600--.sslip.io.` synthesizes `2600::`
(public) and contains the blocked substring. -/
theorem aaaa_blocklist_sink_witness :
    processQuestion ⟨["raiffeisen"], [], Metrics.zero, []⟩
        ⟨"raiffeisen.2600--.sslip.io.", 28⟩ "9.9.9.9"
      = .ok (⟨true, 0,
              [⟨"raiffeisen.2600--.sslip.io.", 1, 604800,
                .aaaa [0x26, 0, 0x1f, 0x18, 0x0a, 0xaf, 0x69, 0, 0, 0, 0, 0, 0, 0, 0, 0xa]⟩],
              [], []⟩,
             ⟨["raiffeisen"], [], ⟨0, 1, 0, 0, 0, 0, 0, 1⟩, []⟩) := by
  have h := aaaa_blocklist_sink ⟨["raiffeisen"], [], Metrics.zero, []⟩
    ⟨"raiffeisen.2600--.sslip.io.", 28⟩ "9.9.9.9"
    (by decide) (by decide) (by decide)
  rw [h.1]
  rfl

/-! ## Claim C4: leftmost matching -/

/-- The scanner returns the match of the leftmost position at which the
anchored matcher succeeds. -/
theorem scanGen_some (probe : Bool → List Char → Option (List Char)) (cs : List Char)
    (b : Bool) (lit : List Char) (h : scanGen probe b cs = some lit) :
    ∃ n, probe (b && decide (n = 0)) (cs.drop n) = some lit ∧
      ∀ m, m < n → probe (b && decide (m = 0)) (cs.drop m) = none := by
  induction cs generalizing b with
  | nil =>
    refine ⟨0, ?_, ?_⟩
    · simpa [scanGen] using h
    · intro m hm
      omega
  | cons c rest ih =>
    rw [scanGen] at h
    cases hc : probe b (c :: rest) with
    | some l =>
      rw [hc] at h
      have hl : l = lit := by simpa using h
      subst hl
      refine ⟨0, ?_, ?_⟩
      · simpa using hc
      · intro m hm
        omega
    | none =>
      rw [hc] at h
      obtain ⟨n, hn, hmin⟩ := ih false h
      refine ⟨n + 1, ?_, ?_⟩
      · simpa using hn
      · intro m hm
        cases m with
        | zero => simpa using hc
        | succ k =>
          have hk : k < n := by omega
          simpa using hmin k hk

/-- Anchored IPv4 match at position `n` of a name: the `^` alternative of
the boundary group is available only at position 0. -/
def ipv4MatchAt (sep : Char) (s : String) (n : Nat) : Option (List Char) :=
  ipv4TryHere sep (decide (n = 0)) (s.data.drop n)

/-- Anchored IPv6 match at position `n` of a name. -/
def ipv6MatchAt (s : String) (n : Nat) : Option (List Char) :=
  ipv6TryHere (decide (n = 0)) (s.data.drop n)

/-- C4 (amended).  Within each recognizer the returned literal is the one
of the leftmost matching position: this holds for the dashed IPv4
pattern, the dotted IPv4 pattern and the IPv6 pattern separately.  Across
recognizers position does not decide: `NameToA` runs the dashed pattern
over the whole name first, so any dashed match preempts every dotted
match regardless of position, and `NameToAAAA` considers only IPv6
literals. -/
theorem leftmost_within_pattern :
    (∀ s lit, ipv4Dashes s = some lit →
      ∃ n, ipv4MatchAt '-' s n = some lit ∧ ∀ m, m < n → ipv4MatchAt '-' s m = none) ∧
    (∀ s lit, ipv4Dots s = some lit →
      ∃ n, ipv4MatchAt '.' s n = some lit ∧ ∀ m, m < n → ipv4MatchAt '.' s m = none) ∧
    (∀ s lit, ipv6Find s = some lit →
      ∃ n, ipv6MatchAt s n = some lit ∧ ∀ m, m < n → ipv6MatchAt s m = none) ∧
    (∀ s lit, customA (lowerS s) = [] → ipv4Dashes s = some lit →
      NameToA s = match parseIPv4 (dashToDot lit) with
                  | some q => [q]
                  | none => []) := by
  refine ⟨?_, ?_, ?_, ?_⟩
  · intro s lit h
    obtain ⟨n, hn, hmin⟩ := scanGen_some (ipv4TryHere '-') s.data true lit h
    refine ⟨n, by simpa [ipv4MatchAt] using hn, ?_⟩
    intro m hm
    simpa [ipv4MatchAt] using hmin m hm
  · intro s lit h
    obtain ⟨n, hn, hmin⟩ := scanGen_some (ipv4TryHere '.') s.data true lit h
    refine ⟨n, by simpa [ipv4MatchAt] using hn, ?_⟩
    intro m hm
    simpa [ipv4MatchAt] using hmin m hm
  · intro s lit h
    obtain ⟨n, hn, hmin⟩ := scanGen_some ipv6TryHere s.data true lit h
    refine ⟨n, by simpa [ipv6MatchAt] using hn, ?_⟩
    intro m hm
    simpa [ipv6MatchAt] using hmin m hm
  · intro s lit hc hdash
    rw [NameToA_no_custom s hc]
    simp [nameToAregex, hdash]

/-- C4 counterexample: in `1.2.3.4.5-6-7-8.sslip.io.` the dotted literal
`1.2.3.4` matches at position 0 — leftmost among all embedded literals —
yet `NameToA` returns the dashed `5.6.7.8`, because the dashed pattern is
tried first over the whole name. -/
theorem dash_beats_leftmost_dot_counterexample :
    ipv4MatchAt '.' "1.2.3.4.5-6-7-8.sslip.io." 0 = some ['1', '.', '2', '.', '3', '.', '4'] ∧
    NameToA "1.2.3.4.5-6-7-8.sslip.io." = [[5, 6, 7, 8]] := by
  decide

/-- C4 witness: the dotted pattern takes the leftmost of two dotted
literals, and a dashed literal wins over a dotted literal to its left. -/
theorem leftmost_within_pattern_witness :
    (∃ n, ipv4MatchAt '.' "nono.io.127.0.0.1.192.168.0.1.sslip.io" n
        = some ['1', '2', '7', '.', '0', '.', '0', '.', '1'] ∧
      ∀ m, m < n → ipv4MatchAt '.' "nono.io.127.0.0.1.192.168.0.1.sslip.io" m = none) ∧
    NameToA "nono.io.127.0.0.1.192-168-0-1.sslip.io" = [[192, 168, 0, 1]] := by
  constructor
  · exact leftmost_within_pattern.2.1 "nono.io.127.0.0.1.192.168.0.1.sslip.io"
      ['1', '2', '7', '.', '0', '.', '0', '.', '1'] (by decide)
  · have h := leftmost_within_pattern.2.2.2 "nono.io.127.0.0.1.192-168-0-1.sslip.io"
      ['1', '9', '2', '-', '1', '6', '8', '-', '0', '-', '1'] (by decide) (by decide)
    rw [h]
    rfl

/-! ## Claim C10: blocklist matching is case-sensitive -/

/-- A character of the blocklist entry class is fixed by lower-casing. -/
theorem lowerChar_fixed (c : Char) (h : isBlockChar c = true) : lowerChar c = c := by
  unfold lowerChar
  unfold isBlockChar at h
  simp only [Bool.or_eq_true, decide_eq_true_eq, Bool.and_eq_true] at h
  rw [if_neg]
  omega

/-- C10.  Blocklist substring matching is case-sensitive at the public
interface: every substring entry `ReadBlocklist` produces consists of the
characters `[-_0-9a-z]` only — in particular it is fixed by lower-casing,
for any behavior of the `net.ParseCIDR` oracle — while `blocklist`
compares entries against the queried hostname without lower-casing it, so
a hostname in which no entry occurs case-sensitively (for instance one
where the blocked word appears only with an upper-case letter) and whose
extracted address lies in no blocked CIDR is not blocked. -/
theorem blocklist_case_sensitive :
    (∀ (parseCIDR : String → Option IPNet) (lines : List String) (e : String),
      e ∈ (ReadBlocklist parseCIDR lines).1 →
        e.data.all isBlockChar = true ∧ lowerS e = e) ∧
    (∀ (x : Xip) (h : String),
      (∀ b ∈ x.blocklistStrings, containsS h b = false) →
      (∀ c ∈ x.blocklistCidrs, ∀ ip, blocklistIP h = some ip → cidrContains c ip = false) →
      blocklist x h = false) := by
  constructor
  · intro parseCIDR lines
    induction lines with
    | nil =>
      intro e he
      simp [ReadBlocklist] at he
    | cons line rest ih =>
      intro e he
      cases hrest : ReadBlocklist parseCIDR rest with
      | mk strs cidrs =>
        simp only [ReadBlocklist, hrest] at he
        cases hp : parseCIDR ⟨(dropComment (lowerL line.data)).filter isBlockCidrChar⟩ with
        | some cidr =>
          rw [hp] at he
          exact ih e (by rw [hrest]; exact he)
        | none =>
          rw [hp] at he
          by_cases hempty :
              ((dropComment (lowerL line.data)).filter isBlockCidrChar).filter isBlockChar = []
          · rw [if_pos hempty] at he
            exact ih e (by rw [hrest]; exact he)
          · rw [if_neg hempty] at he
            cases he with
            | head =>
              have hall : (((dropComment (lowerL line.data)).filter isBlockCidrChar).filter
                  isBlockChar).all isBlockChar = true := by
                rw [List.all_eq_true]
                intro c hc
                exact List.of_mem_filter hc
              refine ⟨hall, ?_⟩
              unfold lowerS lowerL
              congr 1
              rw [List.all_eq_true] at hall
              calc (((dropComment (lowerL line.data)).filter isBlockCidrChar).filter
                      isBlockChar).map lowerChar
                  = (((dropComment (lowerL line.data)).filter isBlockCidrChar).filter
                      isBlockChar).map id := by
                    apply List.map_congr_left
                    intro c hc
                    exact lowerChar_fixed c (hall c hc)
                _ = _ := List.map_id _
            | tail _ hmem =>
              exact ih e (by rw [hrest]; exact hmem)
  · intro x h hstr hcidr
    have hany1 : (x.blocklistStrings.any fun b => containsS h b) = false := by
      rw [List.any_eq_false]
      intro b hb
      simp [hstr b hb]
    have hany2 : (x.blocklistCidrs.any fun c =>
        (match blocklistIP h with
         | some ip => cidrContains c ip
         | none => false)) = false := by
      rw [List.any_eq_false]
      intro c hc
      cases hip : blocklistIP h with
      | none => simp
      | some ip => simp [hcidr c hc ip hip]
    simp only [blocklist, hany1, hany2]
    simp

/-- C10 witness: the entry `no-yelling` parsed from the upper-case line
`NO-YELLING` is already lower-case, and a hostname containing the blocked
word `raiffeisen` only as `Raiffeisen` (embedding the public address
1.2.3.4, with no blocked CIDRs) is not blocked. -/
theorem blocklist_case_sensitive_witness :
    lowerS "no-yelling" = "no-yelling" ∧
    blocklist ⟨["raiffeisen"], [], Metrics.zero, []⟩ "Raiffeisen.1.2.3.4.com." = false := by
  constructor
  · exact (blocklist_case_sensitive.1 (fun _ => none) ["NO-YELLING"] "no-yelling"
      (by decide)).2
  · exact blocklist_case_sensitive.2 ⟨["raiffeisen"], [], Metrics.zero, []⟩
      "Raiffeisen.1.2.3.4.com." (by decide) (by simp)

end Sslip
